import Mathlib

/-!
Verification development for the grocery-management pipeline
(receipt interpretation, expiration estimation, inventory tracking,
orchestration).  Python sources are embedded shallowly: strings are
`String`/`List Char`, machine floats that only ever hold decimal
literals are embedded as `ℚ`, stateful storage is explicit state
passing, and code paths that raise exceptions return `Option`/`Except`.
-/

namespace Grocery

/-! ## Python string primitives -/

/-- The ASCII whitespace characters stripped by Python's `str.strip()`.
(Non-ASCII unicode whitespace is outside the model.) -/
def pyIsSpace (c : Char) : Bool :=
  c = ' ' || c = '\t' || c = '\n' || c = '\r' || c = '\x0b' || c = '\x0c'

/-- `str.lstrip()` on a character list. -/
def stripLeading (l : List Char) : List Char := l.dropWhile pyIsSpace

/-- Python `str.strip()`: drop leading and trailing whitespace. -/
def pyStrip (l : List Char) : List Char :=
  ((l.dropWhile pyIsSpace).reverse.dropWhile pyIsSpace).reverse

/-- Python `str.split(sep)` for a one-character separator: split on every
occurrence, keeping empty pieces (so the result is never empty). -/
def splitOnChar (c : Char) : List Char → List (List Char)
  | [] => [[]]
  | x :: xs =>
    match splitOnChar c xs with
    | [] => [[x]]
    | p :: ps => if x = c then [] :: p :: ps else (x :: p) :: ps

/-- Python `str.split(sep, 1)`: split at the first occurrence of `sep`;
`none` when `sep` does not occur (Python then returns a 1-element list). -/
def splitOnce (sep : Char) (l : List Char) : Option (List Char × List Char) :=
  match l.span (· ≠ sep) with
  | (_, []) => none
  | (pre, _ :: post) => some (pre, post)

/-- Python `str.rsplit(sep, 1)`: split at the last occurrence of `sep`;
`none` when `sep` does not occur. -/
def rsplitOnce (sep : Char) (l : List Char) : Option (List Char × List Char) :=
  match l.reverse.span (· ≠ sep) with
  | (_, []) => none
  | (tokRev, _ :: preRev) => some (preRev.reverse, tokRev.reverse)

/-- Numeric value of a digit string (most significant digit first). -/
def digitsToNat (l : List Char) : ℕ :=
  l.foldl (fun a c => a * 10 + (c.toNat - 48)) 0

/-- ASCII lower-casing of a string, as Python `str.lower()` does on the
ASCII names this system manipulates (full-unicode case folding is outside
the model). -/
def lowerStr (s : String) : String := String.mk (s.data.map Char.toLower)

/-! ## Fuzzy matcher (`grocery_crew.py`, `_estimate_expiration_dates` loop)

The Python loop runs over already lower-cased strings; floating point
scores are embedded as exact rationals. -/

/-- `pat` starts the list `l` (Python `str.startswith`, used to build the
substring test). -/
def startsWithCh : List Char → List Char → Bool
  | [], _ => true
  | _ :: _, [] => false
  | a :: as, b :: bs => a = b && startsWithCh as bs

/-- Python's `pat in l` on strings: `pat` occurs contiguously in `l`. -/
def hasSubstrCh (pat : List Char) : List Char → Bool
  | [] => startsWithCh pat []
  | c :: rest => startsWithCh pat (c :: rest) || hasSubstrCh pat rest

/-- Eligibility test of the matcher: `if item_name in name or name in item_name`. -/
def eligibleB (target cand : String) : Bool :=
  hasSubstrCh target.data cand.data || hasSubstrCh cand.data target.data

/-- `score = len(name) / max(len(item_name), len(name))`, as an exact rational. -/
def score (target cand : String) : ℚ :=
  (cand.length : ℚ) / ((max target.length cand.length : ℕ) : ℚ)

/-- The candidate loop of `_estimate_expiration_dates`: keep the current
best match and best score, replacing them only on a strict improvement. -/
def bestLoop (t : String) : List String → (Option String × ℚ) → (Option String × ℚ)
  | [], acc => acc
  | c :: cs, acc =>
    bestLoop t cs
      (if eligibleB t c then
        (if acc.2 < score t c then (some c, score t c) else acc)
      else acc)

/-- The matcher on pre-lowered strings: run the loop from `(None, 0)` and
return the best match only when `best_match and best_score > 0.5`. -/
def fuzzyMatchLower (t : String) (cs : List String) : Option String :=
  match bestLoop t cs (none, 0) with
  | (none, _) => none
  | (some m, s) => if m ≠ "" ∧ (1 : ℚ) / 2 < s then some m else none

/-- The matcher contract `match(target, candidates)`: the code lower-cases
the target (`item['name'].lower()`) and the candidate names (the keys of
`shelf_life_map`) before running the loop. -/
def fuzzyMatch (target : String) (cands : List String) : Option String :=
  fuzzyMatchLower (lowerStr target) (cands.map lowerStr)

/-! Specification-side restatement of the matcher (used only to compare
with the embedding above): pick the eligible candidate with the highest
score, earlier candidates winning exact ties, and return it only when its
score exceeds 1/2. -/

/-- Best eligible candidate per the specification's words: maximal score,
first-encountered wins ties. -/
def specBest (t : String) : List String → Option (String × ℚ)
  | [] => none
  | c :: cs =>
    match specBest t cs with
    | none => if eligibleB t c then some (c, score t c) else none
    | some (c', s') =>
      if eligibleB t c then
        (if s' ≤ score t c then some (c, score t c) else some (c', s'))
      else some (c', s')

/-- Spec-side matcher on pre-lowered strings: threshold the best score at 1/2. -/
def specMatchLower (t : String) (cs : List String) : Option String :=
  match specBest t cs with
  | none => none
  | (some (c, s)) => if (1 : ℚ) / 2 < s then some c else none

/-- Spec-side matcher: case-insensitive via lower-casing, then select. -/
def specMatch (target : String) (cands : List String) : Option String :=
  specMatchLower (lowerStr target) (cands.map lowerStr)

theorem specBest_score (t : String) :
    ∀ (cs : List String) (c : String) (s : ℚ),
      specBest t cs = some (c, s) → s = score t c := by
  intro cs
  induction cs with
  | nil => intro c s h; simp [specBest] at h
  | cons x xs ih =>
    intro c s h
    simp only [specBest] at h
    cases hxs : specBest t xs with
    | none =>
      rw [hxs] at h
      by_cases he : eligibleB t x = true
      · simp [he] at h
        cases h; rename_i h1 h2
        subst h1; subst h2; rfl
      · simp [he] at h
    | some p =>
      rw [hxs] at h
      obtain ⟨c', s'⟩ := p
      by_cases he : eligibleB t x = true
      · simp only [he, if_true] at h
        by_cases hle : s' ≤ score t x
        · simp [hle] at h
          cases h; rename_i h1 h2
          subst h1; subst h2; rfl
        · simp [hle] at h
          cases h; rename_i h1 h2
          subst h1; subst h2
          exact ih c' s' hxs
      · simp only [he] at h
        simp at h
        cases h; rename_i h1 h2
        subst h1; subst h2
        exact ih c' s' hxs

/-- The accumulator loop computes the first-encountered maximum: running it
from any accumulator merges that accumulator with the spec-side best of the
remaining candidates (the accumulator keeps ties). -/
theorem bestLoop_eq_specBest (t : String) :
    ∀ (cs : List String) (bm : Option String) (bs : ℚ),
      bestLoop t cs (bm, bs) =
        (match specBest t cs with
          | none => (bm, bs)
          | some (c, s) => if bs < s then (some c, s) else (bm, bs)) := by
  intro cs
  induction cs with
  | nil => intro bm bs; simp [bestLoop, specBest]
  | cons x xs ih =>
    intro bm bs
    simp only [bestLoop, specBest]
    by_cases he : eligibleB t x = true
    · rw [if_pos he]
      by_cases himp : bs < score t x
      · rw [if_pos himp, ih]
        cases hxs : specBest t xs with
        | none => simp [he, himp]
        | some p =>
          obtain ⟨c', s'⟩ := p
          by_cases hle : s' ≤ score t x
          · have h1 : ¬ score t x < s' := not_lt.mpr hle
            simp [he, hle, h1, himp]
          · have hlt : score t x < s' := lt_of_not_le hle
            have h1 : bs < s' := lt_trans himp hlt
            simp [he, hle, hlt, h1]
      · rw [if_neg himp, ih]
        cases hxs : specBest t xs with
        | none => simp [he, himp]
        | some p =>
          obtain ⟨c', s'⟩ := p
          by_cases hle : s' ≤ score t x
          · have h2 : ¬ bs < s' := not_lt.mpr (le_trans hle (not_lt.mp himp))
            simp [he, hle, himp, h2]
          · simp [he, hle]
    · rw [if_neg he, ih]
      cases hxs : specBest t xs with
      | none => simp [he]
      | some p =>
        obtain ⟨c', s'⟩ := p
        simp [he]

/-- A score exceeding 1/2 forces a non-empty candidate (an empty candidate
scores 0). -/
theorem score_pos_ne_empty (t c : String) (h : (1 : ℚ) / 2 < score t c) : c ≠ "" := by
  intro hc
  subst hc
  have h0 : score t "" = 0 := by
    simp [score]
  rw [h0] at h
  norm_num at h

/-- The matcher on pre-lowered inputs agrees with the specification-side
selection: highest score, first-encountered tie-break, 1/2 threshold. -/
theorem fuzzyMatchLower_eq_specMatchLower (t : String) (cs : List String) :
    fuzzyMatchLower t cs = specMatchLower t cs := by
  unfold fuzzyMatchLower specMatchLower
  rw [bestLoop_eq_specBest]
  cases hxs : specBest t cs with
  | none => rfl
  | some p =>
    obtain ⟨c, s⟩ := p
    have hs : s = score t c := specBest_score t cs c s hxs
    dsimp only
    by_cases h0 : (0 : ℚ) < s
    · rw [if_pos h0]
      by_cases hh : (1 : ℚ) / 2 < s
      · have hne : c ≠ "" := score_pos_ne_empty t c (hs ▸ hh)
        simp [hh, hne]
      · have hh2 : ¬ (2⁻¹ : ℚ) < s := by rw [← one_div]; exact hh
        simp [hh, hh2]
    · rw [if_neg h0]
      have hh : ¬ (1 : ℚ) / 2 < s := fun h => h0 (lt_trans (by norm_num) h)
      have hh2 : ¬ (2⁻¹ : ℚ) < s := by rw [← one_div]; exact hh
      simp [hh, hh2]

/-- C1: the Fuzzy Matcher is case-insensitive, a candidate is eligible iff
target and candidate contain one another as substrings, each eligible
candidate scores `len(candidate) / max(len(target), len(candidate))`, the
highest-scoring eligible candidate is returned iff its score exceeds 0.5
(`None` otherwise), and the first-encountered candidate wins exact score
ties — i.e. the code's matcher coincides with the specification-side
matcher `specMatch` built from exactly those words. -/
theorem fuzzyMatch_eq_specMatch (target : String) (cands : List String) :
    fuzzyMatch target cands = specMatch target cands :=
  fuzzyMatchLower_eq_specMatchLower (lowerStr target) (cands.map lowerStr)

/-- C2 counterexample: on the spec's first worked example the matcher does
not return `None`; the candidate `"whole milk"` scores
`len("whole milk") / max(4, 10) = 10/10 = 1 > 0.5` and is returned. -/
theorem fuzzyMatch_milk_example_not_none :
    fuzzyMatch "milk" ["whole milk", "bread"] ≠ none ∧
      fuzzyMatch "milk" ["whole milk", "bread"] = some "whole milk" := by
  have e1 : eligibleB "milk" "whole milk" = true := by decide
  have e2 : eligibleB "milk" "bread" = false := by decide
  have l1 : lowerStr "milk" = "milk" := by decide
  have l2 : lowerStr "whole milk" = "whole milk" := by decide
  have l3 : lowerStr "bread" = "bread" := by decide
  have s1 : score "milk" "whole milk" = 1 := by
    have h10 : ("whole milk".length) = 10 := by decide
    have h4 : ("milk".length) = 4 := by decide
    simp only [score, h10, h4]
    norm_num
  have hne : ("whole milk" : String) ≠ "" := by decide
  have h : fuzzyMatch "milk" ["whole milk", "bread"] = some "whole milk" := by
    simp only [fuzzyMatch, List.map, l1, l2, l3]
    simp only [fuzzyMatchLower, bestLoop, e1, e2, s1]
    norm_num [hne]
  exact ⟨by rw [h]; simp, h⟩

/-- C2 amended: on the spec's worked examples the code returns
`"whole milk"` (score 10/10 = 1, above the 0.5 threshold — not `None` as
the spec computes) for `match("milk", {"whole milk", "bread"})`, and
`"milk 2%"` (score 7/7 = 1) for `match("milk", {"milk 2%"})`. -/
theorem fuzzyMatch_worked_examples :
    fuzzyMatch "milk" ["whole milk", "bread"] = some "whole milk" ∧
      fuzzyMatch "milk" ["milk 2%"] = some "milk 2%" := by
  constructor
  · have e1 : eligibleB "milk" "whole milk" = true := by decide
    have e2 : eligibleB "milk" "bread" = false := by decide
    have l1 : lowerStr "milk" = "milk" := by decide
    have l2 : lowerStr "whole milk" = "whole milk" := by decide
    have l3 : lowerStr "bread" = "bread" := by decide
    have s1 : score "milk" "whole milk" = 1 := by
      have h10 : ("whole milk".length) = 10 := by decide
      have h4 : ("milk".length) = 4 := by decide
      simp only [score, h10, h4]
      norm_num
    have hne : ("whole milk" : String) ≠ "" := by decide
    simp only [fuzzyMatch, List.map, l1, l2, l3]
    simp only [fuzzyMatchLower, bestLoop, e1, e2, s1]
    norm_num [hne]
  · have e1 : eligibleB "milk" "milk 2%" = true := by decide
    have l1 : lowerStr "milk" = "milk" := by decide
    have l2 : lowerStr "milk 2%" = "milk 2%" := by decide
    have s1 : score "milk" "milk 2%" = 1 := by
      have h7 : ("milk 2%".length) = 7 := by decide
      have h4 : ("milk".length) = 4 := by decide
      simp only [score, h7, h4]
      norm_num
    have hne : ("milk 2%" : String) ≠ "" := by decide
    simp only [fuzzyMatch, List.map, l1, l2]
    simp only [fuzzyMatchLower, bestLoop, e1, s1]
    norm_num [hne]

/-! ## Calendar dates

Python `datetime.date` values and their `%Y-%m-%d` string form, embedded
through a proleptic-Gregorian day count. -/

structure Date where
  year : ℕ
  month : ℕ
  day : ℕ
deriving DecidableEq

def isLeap (y : ℕ) : Bool :=
  y % 4 = 0 && (y % 100 ≠ 0 || y % 400 = 0)

def daysInMonth (y m : ℕ) : ℕ :=
  if m = 2 then (if isLeap y then 29 else 28)
  else if m = 4 ∨ m = 6 ∨ m = 9 ∨ m = 11 then 30
  else 31

/-- Day number of a calendar date: days since 0000-03-01, valid for
year ≥ 1 (all dates this system handles). -/
def rataDie (d : Date) : ℕ :=
  let y := if d.month ≤ 2 then d.year - 1 else d.year
  let era := y / 400
  let yoe := y % 400
  let mp := if 2 < d.month then d.month - 3 else d.month + 9
  let doy := (153 * mp + 2) / 5 + (d.day - 1)
  let doe := yoe * 365 + yoe / 4 - yoe / 100 + doy
  era * 146097 + doe

/-- Calendar date of a day number (inverse of `rataDie` on valid dates). -/
def dateOfRataDie (z : ℕ) : Date :=
  let era := z / 146097
  let doe := z % 146097
  let yoe := (doe - doe / 1460 + doe / 36524 - doe / 146096) / 365
  let y := yoe + era * 400
  let doy := doe - (365 * yoe + yoe / 4 - yoe / 100)
  let mp := (5 * doy + 2) / 153
  let d := doy - (153 * mp + 2) / 5 + 1
  let m := if mp < 10 then mp + 3 else mp - 9
  ⟨if m ≤ 2 then y + 1 else y, m, d⟩

/-- `date + timedelta(days=n)` for a non-negative number of days. -/
def addDays (d : Date) (n : ℕ) : Date := dateOfRataDie (rataDie d + n)

/-- Zero-padded decimal rendering of width `w`. -/
def padNum (w n : ℕ) : String :=
  String.mk (List.replicate (w - (toString n).length) '0') ++ toString n

/-- `date.strftime("%Y-%m-%d")`. -/
def formatDate (d : Date) : String :=
  padNum 4 d.year ++ "-" ++ padNum 2 d.month ++ "-" ++ padNum 2 d.day

/-- `datetime.strptime(s, "%Y-%m-%d")`: exactly four year digits, one or
two month and day digits, validated as a real calendar date with year ≥ 1;
`none` models the `ValueError` Python raises otherwise. -/
def parseDate (s : String) : Option Date :=
  match splitOnChar '-' s.data with
  | [ys, ms, ds] =>
    if ys.length = 4 && ys.all Char.isDigit
        && (ms.length = 1 || ms.length = 2) && ms.all Char.isDigit
        && (ds.length = 1 || ds.length = 2) && ds.all Char.isDigit then
      let y := digitsToNat ys
      let m := digitsToNat ms
      let d := digitsToNat ds
      if 1 ≤ y && 1 ≤ m && m ≤ 12 && 1 ≤ d && d ≤ daysInMonth y m then
        some ⟨y, m, d⟩
      else none
    else none
  | _ => none

/-! ## Grocery items and the expiration-estimator stage
(`expiration_date_estimator/app.py`) -/

/-- A stored grocery item (DynamoDB record), with the optional attributes
written by the later stages. -/
structure Item where
  itemId : String
  name : String
  purchaseDate : String
  expirationDate : Option String := none
  shelfLifeDays : Option ℕ := none
  daysUntilExpiration : Option ℤ := none
deriving DecidableEq

/-- `re.search(r'(\d+)', s)`: the first maximal digit run, if any. -/
def findFirstNat : List Char → Option ℕ
  | [] => none
  | c :: r =>
    if c.isDigit then some (digitsToNat (c :: r.takeWhile Char.isDigit))
    else findFirstNat r

/-- The line loop of `parse_expiration_estimates`: skip blank lines, split
at the first colon, keep the line when a digit run follows the colon. -/
def parseEstimateLines : List (List Char) → List (String × ℕ)
  | [] => []
  | line :: rest =>
    if pyStrip line = [] then parseEstimateLines rest
    else
      match splitOnce ':' line with
      | none => parseEstimateLines rest
      | some (pre, post) =>
        match findFirstNat (pyStrip post) with
        | some n => (String.mk (pyStrip pre), n) :: parseEstimateLines rest
        | none => parseEstimateLines rest

/-- `parse_expiration_estimates` (expiration_date_estimator/app.py). -/
def parseExpirationEstimates (text : String) : List (String × ℕ) :=
  parseEstimateLines (splitOnChar '\n' (pyStrip text.data))

/-- Python dict lookup on insertion-ordered key/value pairs: a later
duplicate key overwrites an earlier value. -/
def dictLookup (kvs : List (String × ℕ)) (k : String) : Option ℕ :=
  (kvs.reverse.find? (fun p => p.1 == k)).map (fun p => p.2)

/-- One iteration of the estimator's item loop: an exact-name hit in the
parsed estimates gives its shelf life, otherwise the 7-day default;
`none` models the `ValueError` from `strptime` on a bad purchase date. -/
def estimateItem (est : List (String × ℕ)) (it : Item) : Option Item :=
  match dictLookup est it.name with
  | some days =>
    (parseDate it.purchaseDate).map (fun pd =>
      { it with expirationDate := some (formatDate (addDays pd days)),
                shelfLifeDays := some days })
  | none =>
    (parseDate it.purchaseDate).map (fun pd =>
      { it with expirationDate := some (formatDate (addDays pd 7)),
                shelfLifeDays := some 7 })

/-- The `for item in grocery_items` loop of `estimate_expiration_dates`:
every item is processed and appended in order; an exception anywhere
aborts the whole stage. -/
def estimateLoop (est : List (String × ℕ)) : List Item → Option (List Item)
  | [] => some []
  | it :: rest => do
    let it2 ← estimateItem est it
    let rest2 ← estimateLoop est rest
    pure (it2 :: rest2)

/-- `estimate_expiration_dates` (expiration_date_estimator/app.py), taking
the generated text of the model response. -/
def estimate_expiration_dates (text : String) (items : List Item) :
    Option (List Item) :=
  estimateLoop (parseExpirationEstimates text) items

/-- The per-item contract of the estimator stage: identity fields are kept,
the shelf life is the exact-name estimate or the 7-day default, and the
expiration date is the purchase date plus the shelf life. -/
def estimatedAs (est : List (String × ℕ)) (a b : Item) : Prop :=
  b.itemId = a.itemId ∧ b.name = a.name ∧ b.purchaseDate = a.purchaseDate ∧
  b.shelfLifeDays = some ((dictLookup est a.name).getD 7) ∧
  ∃ pd, parseDate a.purchaseDate = some pd ∧
    b.expirationDate =
      some (formatDate (addDays pd ((dictLookup est a.name).getD 7)))

theorem estimateItem_spec (est : List (String × ℕ)) (a b : Item)
    (h : estimateItem est a = some b) : estimatedAs est a b := by
  unfold estimateItem at h
  cases hl : dictLookup est a.name with
  | some days =>
    rw [hl] at h
    cases hp : parseDate a.purchaseDate with
    | none => rw [hp] at h; simp at h
    | some pd =>
      rw [hp] at h
      have hb : ({ a with expirationDate := some (formatDate (addDays pd days)), shelfLifeDays := some days } : Item) = b := by
        simpa using h
      subst hb
      exact ⟨rfl, rfl, rfl, by simp [hl], pd, hp, by simp [hl]⟩
  | none =>
    rw [hl] at h
    cases hp : parseDate a.purchaseDate with
    | none => rw [hp] at h; simp at h
    | some pd =>
      rw [hp] at h
      have hb : ({ a with expirationDate := some (formatDate (addDays pd 7)), shelfLifeDays := some 7 } : Item) = b := by
        simpa using h
      subst hb
      exact ⟨rfl, rfl, rfl, by simp [hl], pd, hp, by simp [hl]⟩

theorem estimateLoop_spec (est : List (String × ℕ)) :
    ∀ (items out : List Item), estimateLoop est items = some out →
      List.Forall₂ (estimatedAs est) items out := by
  intro items
  induction items with
  | nil =>
    intro out h
    simp only [estimateLoop] at h
    cases h
    exact List.Forall₂.nil
  | cons it rest ih =>
    intro out h
    simp only [estimateLoop, Option.bind_eq_bind, Option.bind] at h
    cases h1 : estimateItem est it with
    | none => rw [h1] at h; simp at h
    | some it2 =>
      rw [h1] at h
      cases h2 : estimateLoop est rest with
      | none => rw [h2] at h; simp at h
      | some rest2 =>
        rw [h2] at h
        simp at h
        subst h
        exact List.Forall₂.cons (estimateItem_spec est it it2 h1) (ih rest2 h2)

/-- C4: for every item written by the expiration-estimator stage, a present
expiration date equals the item's purchase date plus the assigned shelf
life (formatted back to `%Y-%m-%d`); concretely, purchase date 2024-01-01
with estimated shelf life 7 gives expiration date 2024-01-08. -/
theorem estimator_expiration_eq_purchase_plus_shelf :
    (∀ (text : String) (items out : List Item) (i : ℕ)
        (hi : i < out.length) (hj : i < items.length),
        estimate_expiration_dates text items = some out →
        ∀ ed, (out.get ⟨i, hi⟩).expirationDate = some ed →
          ∃ pd days, parseDate ((items.get ⟨i, hj⟩).purchaseDate) = some pd ∧
            (out.get ⟨i, hi⟩).shelfLifeDays = some days ∧
            ed = formatDate (addDays pd days)) ∧
      estimate_expiration_dates "milk: 7 days"
          [⟨"i1", "milk", "2024-01-01", none, none, none⟩] =
        some [⟨"i1", "milk", "2024-01-01", some "2024-01-08", some 7, none⟩] := by
  constructor
  · intro text items out i hi hj hrun ed hed
    have hfa := estimateLoop_spec (parseExpirationEstimates text) items out hrun
    have hget := (List.forall₂_iff_get.mp hfa).2 i hj hi
    obtain ⟨_, _, _, hshelf, pd, hpd, hexp⟩ := hget
    refine ⟨pd,
      (dictLookup (parseExpirationEstimates text) ((items.get ⟨i, hj⟩).name)).getD 7,
      hpd, hshelf, ?_⟩
    rw [hed] at hexp
    exact Option.some_inj.mp hexp
  · decide

/-- Witness for C4: the round-trip instance, obtained by applying the
theorem to a one-item run of the stage. -/
theorem estimator_expiration_eq_purchase_plus_shelf_witness :
    ∃ pd days, parseDate "2024-01-01" = some pd ∧
      (some 7 : Option ℕ) = some days ∧
      "2024-01-08" = formatDate (addDays pd days) :=
  estimator_expiration_eq_purchase_plus_shelf.1 "milk: 7 days"
    [⟨"i1", "milk", "2024-01-01", none, none, none⟩]
    [⟨"i1", "milk", "2024-01-01", some "2024-01-08", some 7, none⟩]
    0 (by decide) (by decide) (by decide) "2024-01-08" rfl

/-! ## JSON values, `json.loads` and `json.dumps`

The Python standard-library JSON codec, embedded as a strict
recursive-descent parser over the JSON grammar.  Objects are
insertion-ordered key/value lists and numbers are exact rationals; the
non-standard `NaN`/`Infinity` literals and surrogate pairing of `\u`
escapes are outside the model. -/

inductive Json where
  | null
  | bool (b : Bool)
  | num (q : ℚ)
  | str (s : String)
  | arr (xs : List Json)
  | obj (kvs : List (String × Json))

def jsonWs (c : Char) : Bool :=
  c = ' ' || c = '\t' || c = '\n' || c = '\r'

def skipWs (l : List Char) : List Char := l.dropWhile jsonWs

def hexVal (c : Char) : Option ℕ :=
  if c.isDigit then some (c.toNat - 48)
  else if 'a' ≤ c ∧ c ≤ 'f' then some (c.toNat - 87)
  else if 'A' ≤ c ∧ c ≤ 'F' then some (c.toNat - 55)
  else none

/-- The body of a JSON string after its opening quote: literal characters
and escapes up to the closing quote; raw control characters are rejected. -/
def parseStrChars : List Char → Option (List Char × List Char)
  | [] => none
  | '"' :: r => some ([], r)
  | '\\' :: 'u' :: a :: b :: c :: d :: r => do
    let ha ← hexVal a
    let hb ← hexVal b
    let hc ← hexVal c
    let hd ← hexVal d
    let (cs, r2) ← parseStrChars r
    pure (Char.ofNat (((ha * 16 + hb) * 16 + hc) * 16 + hd) :: cs, r2)
  | '\\' :: e :: r => do
    let c ← (match e with
      | '"' => some '"'
      | '\\' => some '\\'
      | '/' => some '/'
      | 'b' => some (Char.ofNat 8)
      | 'f' => some (Char.ofNat 12)
      | 'n' => some '\n'
      | 'r' => some '\r'
      | 't' => some '\t'
      | _ => none)
    let (cs, r2) ← parseStrChars r
    pure (c :: cs, r2)
  | c :: r =>
    if c.toNat < 32 then none
    else do
      let (cs, r2) ← parseStrChars r
      pure (c :: cs, r2)

/-- A JSON number at the head of the input:
`-?(0|[1-9][0-9]*)([.][0-9]+)?([eE][+-]?[0-9]+)?`.  A malformed fraction
fails; a malformed exponent is left unconsumed, as Python's number regex
leaves it. -/
def parseNumber (l : List Char) : Option (ℚ × List Char) :=
  let sgn := match l with
    | '-' :: r => (true, r)
    | _ => (false, l)
  let ip := sgn.2.takeWhile Char.isDigit
  let l2 := sgn.2.dropWhile Char.isDigit
  if ip = [] then none
  else if 1 < ip.length ∧ ip.head? = some '0' then none
  else
    let step2 : Option (ℚ × List Char) :=
      match l2 with
      | '.' :: r =>
        let fp := r.takeWhile Char.isDigit
        let r2 := r.dropWhile Char.isDigit
        if fp = [] then none
        else some ((digitsToNat ip : ℚ) + (digitsToNat fp : ℚ) / (10 : ℚ) ^ fp.length, r2)
      | _ => some ((digitsToNat ip : ℚ), l2)
    match step2 with
    | none => none
    | some (m, l3) =>
      let ve : ℚ × List Char :=
        match l3 with
        | e :: r =>
          if e = 'e' ∨ e = 'E' then
            let se : ℤ × List Char := match r with
              | '+' :: r2 => (1, r2)
              | '-' :: r2 => (-1, r2)
              | _ => (1, r)
            let ed := se.2.takeWhile Char.isDigit
            let r2 := se.2.dropWhile Char.isDigit
            if ed = [] then (m, l3)
            else (m * (10 : ℚ) ^ (se.1 * (digitsToNat ed : ℤ)), r2)
          else (m, l3)
        | [] => (m, l3)
      some ((if sgn.1 then -ve.1 else ve.1), ve.2)

mutual

/-- One JSON value at the head of the input (leading whitespace allowed),
with fuel bounding the recursion depth. -/
def parseValue : ℕ → List Char → Option (Json × List Char)
  | 0, _ => none
  | fuel + 1, l =>
    match skipWs l with
    | 'n' :: 'u' :: 'l' :: 'l' :: r => some (.null, r)
    | 't' :: 'r' :: 'u' :: 'e' :: r => some (.bool true, r)
    | 'f' :: 'a' :: 'l' :: 's' :: 'e' :: r => some (.bool false, r)
    | '"' :: r => do
      let sr ← parseStrChars r
      pure (.str (String.mk sr.1), sr.2)
    | '[' :: r =>
      (match skipWs r with
        | ']' :: r2 => some (.arr [], r2)
        | _ => do
          let er ← parseElems fuel (skipWs r)
          pure (.arr er.1, er.2))
    | '{' :: r =>
      (match skipWs r with
        | '}' :: r2 => some (.obj [], r2)
        | _ => do
          let mr ← parseMembers fuel (skipWs r)
          pure (.obj mr.1, mr.2))
    | r => do
      let nr ← parseNumber r
      pure (.num nr.1, nr.2)

/-- Comma-separated array elements up to the closing bracket. -/
def parseElems : ℕ → List Char → Option (List Json × List Char)
  | 0, _ => none
  | fuel + 1, l => do
    let vr ← parseValue fuel l
    match skipWs vr.2 with
    | ',' :: r2 => do
      let er ← parseElems fuel r2
      pure (vr.1 :: er.1, er.2)
    | ']' :: r2 => some ([vr.1], r2)
    | _ => none

/-- Comma-separated `"key": value` members up to the closing brace. -/
def parseMembers : ℕ → List Char → Option (List (String × Json) × List Char)
  | 0, _ => none
  | fuel + 1, l =>
    match skipWs l with
    | '"' :: r => do
      let kr ← parseStrChars r
      match skipWs kr.2 with
      | ':' :: r3 => do
        let vr ← parseValue fuel r3
        match skipWs vr.2 with
        | ',' :: r5 => do
          let mr ← parseMembers fuel r5
          pure ((String.mk kr.1, vr.1) :: mr.1, mr.2)
        | '}' :: r5 => some ([(String.mk kr.1, vr.1)], r5)
        | _ => none
      | _ => none
    | _ => none

end

/-- `json.loads`: parse one JSON value and require only trailing
whitespace after it (anything else is the `Extra data` error). -/
def jsonParse (s : String) : Option Json :=
  match parseValue (2 * s.length + 1) s.data with
  | some vr => if skipWs vr.2 = [] then some vr.1 else none
  | none => none

/-! ## `generate_structured_output` (deepseek_client.py) -/

/-- The regex search `re.search(r'({.*})', text, re.DOTALL)`: with a greedy
dot-all body, the match (when one exists) runs from the first opening brace
to the last closing brace after it. -/
def extractBraced (l : List Char) : Option (List Char) :=
  match splitOnce '{' l with
  | none => none
  | some (_, afterBrace) =>
    match rsplitOnce '}' afterBrace with
    | none => none
    | some (mid, _) => some ('{' :: mid ++ ['}'])

/-- `generate_structured_output` applied to the raw generated text: extract
the regex group, `json.loads` it, and fall back to the object
`{"raw_response": <text>}` when extraction or parsing fails. -/
def generateStructuredOutput (responseText : String) : Json :=
  match extractBraced responseText.data with
  | some sub =>
    match jsonParse (String.mk sub) with
    | some v => v
    | none => Json.obj [("raw_response", Json.str responseText)]
  | none => Json.obj [("raw_response", Json.str responseText)]

theorem extractBraced_shape (l sub : List Char) (h : extractBraced l = some sub) :
    ∃ mid, sub = '{' :: (mid ++ ['}']) := by
  unfold extractBraced at h
  cases h1 : splitOnce '{' l with
  | none => rw [h1] at h; simp at h
  | some p =>
    obtain ⟨a, b⟩ := p
    rw [h1] at h
    dsimp only at h
    cases h2 : rsplitOnce '}' b with
    | none => rw [h2] at h; simp at h
    | some q =>
      obtain ⟨mid, rest⟩ := q
      rw [h2] at h
      dsimp only at h
      exact ⟨mid, (Option.some_inj.mp h).symm⟩

theorem parseValue_succ_brace (n : ℕ) (t : List Char) :
    parseValue (n + 1) ('{' :: t) =
      (match skipWs t with
        | '}' :: r2 => some (Json.obj [], r2)
        | _ => do
          let mr ← parseMembers n (skipWs t)
          pure (Json.obj mr.1, mr.2)) := rfl

/-- A parse of input that starts with an opening brace can only produce an
object. -/
theorem parseValue_brace_obj (fuel : ℕ) (t : List Char) (v : Json) (r : List Char)
    (h : parseValue fuel ('{' :: t) = some (v, r)) : ∃ kvs, v = Json.obj kvs := by
  cases fuel with
  | zero => simp [parseValue] at h
  | succ n =>
    rw [parseValue_succ_brace] at h
    split at h
    · exact ⟨[], (Prod.mk.injEq _ _ _ _ ▸ Option.some_inj.mp h).1.symm⟩
    · cases hm : parseMembers n (skipWs t) with
      | none => rw [hm] at h; simp at h
      | some mr =>
        rw [hm] at h
        simp at h
        exact ⟨mr.1, h.1.symm⟩

/-- `json.loads` of a string that starts with an opening brace can only
produce an object. -/
theorem jsonParse_brace_obj (mid : List Char) (v : Json)
    (h : jsonParse (String.mk ('{' :: mid)) = some v) : ∃ kvs, v = Json.obj kvs := by
  unfold jsonParse at h
  cases hpv : parseValue (2 * (String.mk ('{' :: mid)).length + 1)
      (String.mk ('{' :: mid)).data with
  | none => rw [hpv] at h; simp at h
  | some vr =>
    obtain ⟨w, r⟩ := vr
    rw [hpv] at h
    dsimp only at h
    obtain ⟨kvs, hk⟩ := parseValue_brace_obj _ mid w r hpv
    by_cases hw : skipWs r = []
    · rw [if_pos hw] at h
      exact ⟨kvs, (Option.some_inj.mp h) ▸ hk⟩
    · rw [if_neg hw] at h
      simp at h

/-- The structured-output call can never produce a JSON list: the regex
extracts a brace-delimited group, and parsing it yields an object (or the
fallback object). -/
theorem generateStructured_ne_arr (text : String) (xs : List Json) :
    generateStructuredOutput text ≠ Json.arr xs := by
  unfold generateStructuredOutput
  cases he : extractBraced text.data with
  | none => simp
  | some sub =>
    dsimp only
    obtain ⟨mid, hmid⟩ := extractBraced_shape text.data sub he
    cases hp : jsonParse (String.mk sub) with
    | none => simp
    | some v =>
      obtain ⟨kvs, hk⟩ := jsonParse_brace_obj (mid ++ ['}']) v (hmid ▸ hp)
      dsimp only
      rw [hk]
      simp

/-- C6 counterexample: the extraction is not a balanced scan for the first
JSON object/array.  A response that is exactly the JSON array `[1, 2]`
parses, yet the client returns the fallback (the regex never matches an
array); and in a response holding two complete objects the first top-level
object parses, yet the greedy first-brace-to-last-brace group does not, so
the client again returns the fallback. -/
theorem generateStructured_counterexample :
    generateStructuredOutput "[1, 2]" = Json.obj [("raw_response", Json.str "[1, 2]")] ∧
      jsonParse "[1, 2]" = some (Json.arr [Json.num 1, Json.num 2]) ∧
      generateStructuredOutput "\x7b\"a\": 1\x7d \x7b\"b\": 2\x7d" =
        Json.obj [("raw_response", Json.str "\x7b\"a\": 1\x7d \x7b\"b\": 2\x7d")] ∧
      jsonParse "\x7b\"a\": 1\x7d" = some (Json.obj [("a", Json.num 1)]) :=
  ⟨rfl, rfl, rfl, rfl⟩

/-- C6 amended: `generate_structured_output` takes the substring from the
first opening brace to the last closing brace (objects only — a top-level
array is never extracted, and the group is not balance-aware); when that
substring parses as JSON the parsed value is returned, and in every other
case the fallback `{"raw_response": <text>}` is returned — the function
always produces a value and never raises. -/
theorem generateStructured_contract (text : String) :
    (∃ sub, extractBraced text.data = some sub ∧
        jsonParse (String.mk sub) = some (generateStructuredOutput text)) ∨
      generateStructuredOutput text = Json.obj [("raw_response", Json.str text)] := by
  cases he : extractBraced text.data with
  | none =>
    right
    unfold generateStructuredOutput
    rw [he]
  | some sub =>
    cases hp : jsonParse (String.mk sub) with
    | none =>
      right
      unfold generateStructuredOutput
      rw [he]
      dsimp only
      rw [hp]
    | some v =>
      left
      refine ⟨sub, rfl, ?_⟩
      have hv : generateStructuredOutput text = v := by
        unfold generateStructuredOutput
        rw [he]
        dsimp only
        rw [hp]
      rw [hv]
      exact hp

/-! ## CrewAI estimator tool (`grocery_crew.py`, `_estimate_expiration_dates`) -/

/-- An item flowing through the crew tools (`{'name': ..., 'price': ...}`
dicts, extended in place by the expiration tool). -/
structure CrewItem where
  name : String
  price : ℚ
  expiration_date : Option String := none
  shelf_life_days : Option ℤ := none

/-- One element of the structured result inside the dict comprehension
`{item['name'].lower(): item['shelf_life_days'] for item in result}`: the
element must be an object carrying a string `name` and an integral
`shelf_life_days`; anything else raises and aborts the tool (fractional
`timedelta` day counts are outside the model). -/
def crewShelfPair (j : Json) : Option (String × ℤ) :=
  match j with
  | Json.obj kvs =>
    match (kvs.reverse.find? (fun p => p.1 == "name")).map (fun p => p.2),
        (kvs.reverse.find? (fun p => p.1 == "shelf_life_days")).map (fun p => p.2) with
    | some (Json.str nm), some (Json.num q) =>
      if q.den = 1 then some (lowerStr nm, q.num) else none
    | _, _ => none
  | _ => none

/-- The whole comprehension, aborting on the first bad element. -/
def crewShelfMap (ests : List Json) : Option (List (String × ℤ)) :=
  ests.mapM crewShelfPair

/-- Iteration order of a Python dict built from these pairs: first
occurrence of each key. -/
def dictKeys (kvs : List (String × ℤ)) : List String :=
  (kvs.map (fun p => p.1)).foldl
    (fun acc k => if acc.contains k then acc else acc ++ [k]) []

/-- Python dict lookup: a later duplicate key overwrites an earlier value. -/
def dictLookupZ (kvs : List (String × ℤ)) (k : String) : Option ℤ :=
  (kvs.reverse.find? (fun p => p.1 == k)).map (fun p => p.2)

/-- `timedelta(days=n)` for a possibly negative integral day count, clipped
at the calendar origin (unreachable for the dates this system handles). -/
def addDaysZ (d : Date) (n : ℤ) : Date :=
  dateOfRataDie ((rataDie d : ℤ) + n).toNat

/-- One iteration of the crew tool's item loop: fuzzy-match the lowered
item name against the shelf-life map keys, fall back to 7 days, and stamp
`today + timedelta(days=days)` as the expiration date. -/
def crewUpdateItem (today : Date) (m : List (String × ℤ)) (it : CrewItem) : CrewItem :=
  let best := fuzzyMatchLower (lowerStr it.name) (dictKeys m)
  let days : ℤ :=
    match best with
    | some b => (dictLookupZ m b).getD 7
    | none => 7
  { it with expiration_date := some (formatDate (addDaysZ today days)),
            shelf_life_days := some days }

/-- `_estimate_expiration_dates` (grocery_crew.py) given the already-parsed
structured result: items are updated only when the result is a list
(`isinstance(result, list)`); otherwise — including the `raw_response`
fallback object — they are returned untouched.  `none` models an exception
raised while reading the estimate objects. -/
def crewEstimateExpirationDates (today : Date) (result : Json)
    (items : List CrewItem) : Option (List CrewItem) :=
  match result with
  | Json.arr ests =>
    match crewShelfMap ests with
    | some m => some (items.map (crewUpdateItem today m))
    | none => none
  | _ => some items

/-- The crew estimator tool applied to the raw generated text of its
structured-output call. -/
def crewEstimatePipeline (today : Date) (responseText : String)
    (items : List CrewItem) : Option (List CrewItem) :=
  crewEstimateExpirationDates today (generateStructuredOutput responseText) items

/-- The crew estimator never changes its items: the structured-output call
can only return an object or the fallback object, never the list the tool
requires before applying shelf lives. -/
theorem crewEstimatePipeline_id (today : Date) (text : String)
    (items : List CrewItem) : crewEstimatePipeline today text items = some items := by
  unfold crewEstimatePipeline crewEstimateExpirationDates
  cases hg : generateStructuredOutput text with
  | arr xs => exact absurd hg (generateStructured_ne_arr text xs)
  | null => rfl
  | bool b => rfl
  | num q => rfl
  | str s => rfl
  | obj kvs => rfl

/-- C3 counterexample: even when the generated text contains a well-formed
JSON array of estimates, the crew estimator stage returns its input item
untouched — no expiration date or shelf life is assigned (the regex group
is the inner object, which is not a list). -/
theorem crewEstimate_drops_no_expiration :
    crewEstimatePipeline ⟨2024, 1, 6⟩
        "[\x7b\"name\": \"milk\", \"shelf_life_days\": 5\x7d]"
        [⟨"milk", 1, none, none⟩] =
      some [⟨"milk", 1, none, none⟩] ∧
      (⟨"milk", 1, none, none⟩ : CrewItem).expiration_date = none ∧
      (⟨"milk", 1, none, none⟩ : CrewItem).shelf_life_days = none :=
  ⟨crewEstimatePipeline_id _ _ _, rfl, rfl⟩

/-- C3 amended: the estimator-stage lambda assigns every input item an
expiration date and a shelf life — the exact-name estimate when the parsed
estimates contain the item's name, the 7-day default otherwise — and never
drops an item; the crew-based variant instead always returns its items
untouched, because its structured-output call cannot produce the JSON list
it requires. -/
theorem estimator_stage_contract :
    (∀ (text : String) (items out : List Item),
        estimate_expiration_dates text items = some out →
          out.length = items.length ∧
          List.Forall₂ (estimatedAs (parseExpirationEstimates text)) items out) ∧
      ∀ (today : Date) (text : String) (items : List CrewItem),
        crewEstimatePipeline today text items = some items := by
  constructor
  · intro text items out h
    have hfa := estimateLoop_spec (parseExpirationEstimates text) items out h
    exact ⟨hfa.length_eq.symm, hfa⟩
  · exact crewEstimatePipeline_id

/-- Witness for C3: a one-item run of the estimator lambda, and a crew run
on unparseable text. -/
theorem estimator_stage_contract_witness :
    (([⟨"i2", "bread", "2024-01-02", some "2024-01-05", some 3, none⟩] : List Item).length =
        ([⟨"i2", "bread", "2024-01-02", none, none, none⟩] : List Item).length ∧
      List.Forall₂ (estimatedAs (parseExpirationEstimates "bread: 3 days"))
        [⟨"i2", "bread", "2024-01-02", none, none, none⟩]
        [⟨"i2", "bread", "2024-01-02", some "2024-01-05", some 3, none⟩]) ∧
      crewEstimatePipeline ⟨2024, 1, 6⟩ "no json here" [⟨"rice", 2, none, none⟩] =
        some [⟨"rice", 2, none, none⟩] :=
  ⟨estimator_stage_contract.1 "bread: 3 days"
      [⟨"i2", "bread", "2024-01-02", none, none, none⟩]
      [⟨"i2", "bread", "2024-01-02", some "2024-01-05", some 3, none⟩] (by decide),
    estimator_stage_contract.2 ⟨2024, 1, 6⟩ "no json here" [⟨"rice", 2, none, none⟩]⟩

/-! ## Orchestrator (`orchestrator/app.py`, `process_receipt`) -/

/-- Python `value.get(key)` on a parsed JSON payload: `none` when the value
is not a dict (Python raises `AttributeError`), otherwise the value bound
to the key (later duplicates win), or `some none` when the key is absent. -/
def pyGet (j : Json) (k : String) : Option (Option Json) :=
  match j with
  | Json.obj kvs =>
    some ((kvs.reverse.find? (fun p => p.1 == k)).map (fun p => p.2))
  | _ => none

/-- Python's `payload.get('statusCode') != 200`, negated: `true` exactly
when the retrieved value is the number 200 (Python's int 200 and float
200.0 are both the JSON number 200 here; any other value, a missing key
included, differs from 200). -/
def isStatus200 (sc : Option Json) : Bool :=
  match sc with
  | some (Json.num q) => q == 200
  | _ => false

def hexDigit (n : ℕ) : Char :=
  if n < 10 then Char.ofNat (48 + n) else Char.ofNat (87 + n)

/-- `json.dumps` escaping of one string character (ASCII input; the
`ensure_ascii` escaping of non-ASCII characters is outside the model). -/
def escapeJsonChar (c : Char) : List Char :=
  if c = '"' then ['\\', '"']
  else if c = '\\' then ['\\', '\\']
  else if c = '\n' then ['\\', 'n']
  else if c = '\t' then ['\\', 't']
  else if c = '\r' then ['\\', 'r']
  else if c.toNat = 8 then ['\\', 'b']
  else if c.toNat = 12 then ['\\', 'f']
  else if c.toNat < 32 then
    ['\\', 'u', '0', '0', hexDigit (c.toNat / 16), hexDigit (c.toNat % 16)]
  else [c]

/-- A JSON string literal as `json.dumps` writes it. -/
def dumpStrLit (s : String) : String :=
  "\"" ++ String.mk ((s.data.map escapeJsonChar).flatten) ++ "\""

/-- `json.dumps` with its default separators.  An integral number prints
like a Python int; a non-integral rational prints as `num/den` (an encoding
choice — the orchestrator only ever serialises a string or `null` here). -/
def jsonDump : Json → String
  | Json.null => "null"
  | Json.bool true => "true"
  | Json.bool false => "false"
  | Json.num q =>
    if q.den = 1 then toString q.num else toString q.num ++ "/" ++ toString q.den
  | Json.str s => dumpStrLit s
  | Json.arr xs =>
    "[" ++ String.intercalate ", " (xs.attach.map (fun x => jsonDump x.1)) ++ "]"
  | Json.obj kvs =>
    "\x7b" ++ String.intercalate ", "
      (kvs.attach.map (fun kv => dumpStrLit kv.1.1 ++ ": " ++ jsonDump kv.1.2)) ++ "\x7d"
termination_by j => sizeOf j
decreasing_by
  · have h := List.sizeOf_lt_of_mem x.2
    simp only [Json.arr.sizeOf_spec]
    omega
  · obtain ⟨⟨k, v⟩, hmem⟩ := kv
    have h := List.sizeOf_lt_of_mem hmem
    have h2 : sizeOf (k, v) = 1 + sizeOf k + sizeOf v := rfl
    rw [h2] at h
    simp only [Json.obj.sizeOf_spec]
    omega

/-- The estimator event the orchestrator builds:
`{'body': json.dumps({'receipt_id': receipt_id})}`. -/
def mkExpirationEvent (rid : Json) : Json :=
  Json.obj [("body", Json.str (jsonDump (Json.obj [("receipt_id", rid)])))]

/-- `process_receipt` (orchestrator/app.py), with the two stage invocations
passed as functions from the event to the parsed response payload: call the
interpreter; when its `statusCode` differs from 200 return that response
unchanged; otherwise read `receipt_id` from the JSON body, call the
estimator and return its response.  `Except.error` models an exception
bubbling up to the orchestrator's 500 handler. -/
def processReceipt (interpret estimate : Json → Json) (event : Json) :
    Except String Json :=
  match pyGet (interpret event) "statusCode" with
  | none => Except.error "AttributeError"
  | some sc =>
    if isStatus200 sc then
      match pyGet (interpret event) "body" with
      | none => Except.error "AttributeError"
      | some none => Except.error "KeyError: body"
      | some (some (Json.str bs)) =>
        match jsonParse bs with
        | none => Except.error "JSONDecodeError"
        | some body =>
          match pyGet body "receipt_id" with
          | none => Except.error "AttributeError"
          | some rid =>
            match pyGet (estimate (mkExpirationEvent (rid.getD Json.null))) "statusCode" with
            | none => Except.error "AttributeError"
            | some esc =>
              if isStatus200 esc then
                Except.ok (estimate (mkExpirationEvent (rid.getD Json.null)))
              else Except.ok (estimate (mkExpirationEvent (rid.getD Json.null)))
      | some (some _) => Except.error "TypeError"
    else Except.ok (interpret event)

/-- C7: when the receipt-interpreter stage answers with any status other
than 200 (a missing or non-numeric status included), the orchestrator
returns that response unchanged, and the expiration-estimator stage is
never invoked: the outcome is the same whatever function stands in for the
estimator. -/
theorem orchestrator_short_circuit
    (interpret est est' : Json → Json) (event : Json) (sc : Option Json)
    (hsc : pyGet (interpret event) "statusCode" = some sc)
    (hne : isStatus200 sc = false) :
    processReceipt interpret est event = Except.ok (interpret event) ∧
      processReceipt interpret est event = processReceipt interpret est' event := by
  have h1 : processReceipt interpret est event = Except.ok (interpret event) := by
    unfold processReceipt
    rw [hsc]
    dsimp only
    rw [hne]
    rfl
  have h2 : processReceipt interpret est' event = Except.ok (interpret event) := by
    unfold processReceipt
    rw [hsc]
    dsimp only
    rw [hne]
    rfl
  exact ⟨h1, h1.trans h2.symm⟩

/-- Witness for C7: a concrete interpreter response with status 500 is
forwarded verbatim, for two different estimator stand-ins. -/
theorem orchestrator_short_circuit_witness :
    processReceipt (fun _ => Json.obj [("statusCode", Json.num 500)])
        (fun _ => Json.null) Json.null =
      Except.ok (Json.obj [("statusCode", Json.num 500)]) ∧
      processReceipt (fun _ => Json.obj [("statusCode", Json.num 500)])
          (fun _ => Json.null) Json.null =
        processReceipt (fun _ => Json.obj [("statusCode", Json.num 500)])
          (fun _ => Json.bool true) Json.null :=
  orchestrator_short_circuit (fun _ => Json.obj [("statusCode", Json.num 500)])
    (fun _ => Json.null) (fun _ => Json.bool true) Json.null
    (some (Json.num 500)) rfl rfl

/-! ## Receipt interpreter (`receipt_interpreter/app.py`, `parse_receipt_text`) -/

/-- A grocery record built by `parse_receipt_text`. -/
structure RItem where
  name : String
  price : ℚ
  purchase_date : String
deriving DecidableEq

/-- The exponent suffix of a Python float literal: an optional sign and at
least one digit, consuming the whole rest of the token. -/
def parseExpSuffix (l : List Char) : Option ℤ :=
  let se : ℤ × List Char :=
    match l with
    | '+' :: r => (1, r)
    | '-' :: r => (-1, r)
    | _ => (1, l)
  if se.2 ≠ [] ∧ se.2.all Char.isDigit then some (se.1 * (digitsToNat se.2 : ℤ))
  else none

/-- Python `float()` on a whitespace-free unsigned token: decimal digits
with an optional fraction and an optional exponent.  The special strings
`inf`/`infinity`/`nan` and underscore digit grouping are outside the model
(no theorem below quantifies over them). -/
def parseUnsignedFloat (l : List Char) : Option ℚ :=
  let ip := l.takeWhile Char.isDigit
  match l.dropWhile Char.isDigit with
  | [] => if ip = [] then none else some (digitsToNat ip : ℚ)
  | '.' :: r =>
    let fp := r.takeWhile Char.isDigit
    let m : ℚ := (digitsToNat ip : ℚ) + (digitsToNat fp : ℚ) / (10 : ℚ) ^ fp.length
    if ip = [] ∧ fp = [] then none
    else
      match r.dropWhile Char.isDigit with
      | [] => some m
      | e :: r3 =>
        if e = 'e' ∨ e = 'E' then (parseExpSuffix r3).map (fun ex => m * (10 : ℚ) ^ ex)
        else none
  | e :: r3 =>
    if ip = [] then none
    else if e = 'e' ∨ e = 'E' then
      (parseExpSuffix r3).map (fun ex => (digitsToNat ip : ℚ) * (10 : ℚ) ^ ex)
    else none

/-- Python `float()` with its optional leading sign. -/
def pyFloat (l : List Char) : Option ℚ :=
  match l with
  | '+' :: r => parseUnsignedFloat r
  | '-' :: r => (parseUnsignedFloat r).map (fun q => -q)
  | _ => parseUnsignedFloat l

/-- One line of `parse_receipt_text`: strip the line, split at the last
space, strip the trailing token, remove every '$', and parse the price;
`none` covers a blank line, a line without a space, and the
`except ValueError: continue` on an unparseable price. -/
def parseReceiptLine (today : String) (line : List Char) : Option RItem :=
  if pyStrip line = [] then none
  else
    match rsplitOnce ' ' (pyStrip line) with
    | none => none
    | some (namePart, pricePart) =>
      match pyFloat ((pyStrip pricePart).filter (fun c => c ≠ '$')) with
      | some price => some ⟨String.mk (pyStrip namePart), price, today⟩
      | none => none

/-- `parse_receipt_text` (receipt_interpreter/app.py); `today` stands for
`datetime.now().strftime("%Y-%m-%d")`. -/
def parse_receipt_text (today : String) (text : String) : List RItem :=
  (splitOnChar '\n' (pyStrip text.data)).filterMap (parseReceiptLine today)

theorem splitOnChar_of_not_mem (ch : Char) (l : List Char)
    (h : ∀ c ∈ l, c ≠ ch) : splitOnChar ch l = [l] := by
  induction l with
  | nil => rfl
  | cons x xs ih =>
    have hx : x ≠ ch := h x (List.mem_cons_self x xs)
    have hxs := ih (fun c hc => h c (List.mem_cons_of_mem x hc))
    simp only [splitOnChar, hxs]
    rw [if_neg hx]

theorem dropWhile_all_neg (p : Char → Bool) (l : List Char)
    (h : ∀ c ∈ l, p c = false) : l.dropWhile p = l := by
  cases l with
  | nil => rfl
  | cons a t =>
    have := h a (List.mem_cons_self a t)
    simp [List.dropWhile_cons, this]

theorem dropWhile_head_neg (p : Char → Bool) (l m : List Char)
    (hne : l ≠ []) (hall : ∀ c ∈ l, p c = false) :
    (l ++ m).dropWhile p = l ++ m := by
  cases l with
  | nil => exact absurd rfl hne
  | cons a t =>
    have := hall a (List.mem_cons_self a t)
    simp [List.dropWhile_cons, this]

theorem dropWhile_idem (p : Char → Bool) (l : List Char) :
    (l.dropWhile p).dropWhile p = l.dropWhile p := by
  induction l with
  | nil => rfl
  | cons a t ih =>
    by_cases hp : p a = true
    · simp [List.dropWhile_cons, hp, ih]
    · simp only [Bool.not_eq_true] at hp
      simp [List.dropWhile_cons, hp]

theorem pyStrip_all_neg (l : List Char)
    (h : ∀ c ∈ l, pyIsSpace c = false) : pyStrip l = l := by
  unfold pyStrip
  rw [dropWhile_all_neg pyIsSpace l h]
  rw [dropWhile_all_neg pyIsSpace l.reverse (fun c hc => h c (List.mem_reverse.mp hc))]
  exact List.reverse_reverse l

theorem pyStrip_stripLeading (n : List Char) :
    pyStrip (stripLeading n) = pyStrip n := by
  unfold pyStrip stripLeading
  rw [dropWhile_idem]

/-- Stripping a line `name ++ ' ' ++ token` with a whitespace-free token
strips only the name's leading whitespace. -/
theorem pyStrip_append_token (n tok : List Char)
    (hn : stripLeading n ≠ []) (htok : tok ≠ [])
    (hws : ∀ c ∈ tok, pyIsSpace c = false) :
    pyStrip (n ++ ' ' :: tok) = stripLeading n ++ ' ' :: tok := by
  unfold pyStrip stripLeading
  have h1 : (n ++ ' ' :: tok).dropWhile pyIsSpace = n.dropWhile pyIsSpace ++ ' ' :: tok := by
    rw [List.dropWhile_append]
    have : (n.dropWhile pyIsSpace).isEmpty = false := by
      cases hd : n.dropWhile pyIsSpace with
      | nil => exact absurd hd hn
      | cons a t => rfl
    rw [this]
    simp
  rw [h1]
  have h2 : (n.dropWhile pyIsSpace ++ ' ' :: tok).reverse =
      tok.reverse ++ ' ' :: (n.dropWhile pyIsSpace).reverse := by
    rw [List.reverse_append, List.reverse_cons, List.append_assoc]
    rfl
  rw [h2]
  have h3 : (tok.reverse ++ ' ' :: (n.dropWhile pyIsSpace).reverse).dropWhile pyIsSpace =
      tok.reverse ++ ' ' :: (n.dropWhile pyIsSpace).reverse := by
    apply dropWhile_head_neg
    · simpa using htok
    · intro c hc
      exact hws c (List.mem_reverse.mp hc)
  rw [h3]
  rw [List.reverse_append, List.reverse_cons, List.reverse_reverse, List.reverse_reverse]
  simp

/-- Splitting `name ++ ' ' ++ token` at its last space, when the token has
no space, gives back the name and the token. -/
theorem rsplitOnce_append_token (m tok : List Char)
    (h : ∀ c ∈ tok, c ≠ ' ') :
    rsplitOnce ' ' (m ++ ' ' :: tok) = some (m, tok) := by
  unfold rsplitOnce
  have hrev : (m ++ ' ' :: tok).reverse = tok.reverse ++ ' ' :: m.reverse := by
    rw [List.reverse_append, List.reverse_cons, List.append_assoc]
    rfl
  rw [hrev, List.span_eq_take_drop]
  have ht : (tok.reverse ++ ' ' :: m.reverse).takeWhile (fun c => c ≠ ' ') = tok.reverse := by
    rw [List.takeWhile_append_of_pos (by
      intro a ha
      simpa using h a (List.mem_reverse.mp ha))]
    simp
  have hd : (tok.reverse ++ ' ' :: m.reverse).dropWhile (fun c => c ≠ ' ') = ' ' :: m.reverse := by
    rw [List.dropWhile_append_of_pos (by
      intro a ha
      simpa using h a (List.mem_reverse.mp ha))]
    simp
  rw [ht, hd]
  simp

/-- C5 counterexample: on the well-formed line `"Milk: 3.50"` the record's
name is `"Milk:"` — the stripped text before the final space, keeping the
colon — not the text before the first colon; and a currency symbol other
than `'$'` is not stripped, so `"Milk €3.50"` is discarded although its
final token carries a parseable amount after the symbol. -/
theorem parse_receipt_name_keeps_colon :
    parse_receipt_text "2024-01-01" "Milk: 3.50" =
        [⟨"Milk:", 3 + 50 / 10 ^ 2, "2024-01-01"⟩] ∧
      ("Milk:" : String) ≠ "Milk" ∧
      parse_receipt_text "2024-01-01" "Milk €3.50" = [] :=
  ⟨rfl, by decide, rfl⟩

/-- C5 amended: for a line `name ++ ' ' ++ token` whose name survives
stripping and whose token is whitespace-free, the fallback parser emits
exactly one record — price the parsed value of the token with every `'$'`
removed, name the stripped text before the final space (a `name: price`
line keeps its colon in the name) — and emits nothing when that token does
not parse as a number. -/
theorem receipt_line_contract (today : String) (n tok : List Char)
    (hnl : ∀ c ∈ n, c ≠ '\n') (hnlt : ∀ c ∈ tok, c ≠ '\n')
    (hn : stripLeading n ≠ []) (htok : tok ≠ [])
    (hws : ∀ c ∈ tok, pyIsSpace c = false) :
    (∀ q : ℚ, pyFloat (tok.filter (fun c => c ≠ '$')) = some q →
        parse_receipt_text today (String.mk (n ++ ' ' :: tok)) =
          [⟨String.mk (pyStrip n), q, today⟩]) ∧
      (pyFloat (tok.filter (fun c => c ≠ '$')) = none →
        parse_receipt_text today (String.mk (n ++ ' ' :: tok)) = []) := by
  have hspace : ∀ c ∈ tok, c ≠ ' ' := by
    intro c hc he
    have h := hws c hc
    rw [he] at h
    simp [pyIsSpace] at h
  have hstrip : pyStrip (n ++ ' ' :: tok) = stripLeading n ++ ' ' :: tok :=
    pyStrip_append_token n tok hn htok hws
  have hmem : ∀ c ∈ stripLeading n ++ ' ' :: tok, c ≠ '\n' := by
    intro c hc
    rcases List.mem_append.mp hc with h1 | h2
    · exact hnl c (List.dropWhile_subset pyIsSpace h1)
    · rcases List.mem_cons.mp h2 with h3 | h4
      · rw [h3]; decide
      · exact hnlt c h4
  have hidem : stripLeading (stripLeading n) = stripLeading n := dropWhile_idem pyIsSpace n
  have hs2 : pyStrip (stripLeading n ++ ' ' :: tok) = stripLeading n ++ ' ' :: tok := by
    have h := pyStrip_append_token (stripLeading n) tok (by rw [hidem]; exact hn) htok hws
    rw [hidem] at h
    exact h
  have hne2 : stripLeading n ++ ' ' :: tok ≠ [] := by
    intro hcontra
    exact absurd (List.append_eq_nil.mp hcontra).2 (by simp)
  have hrsplit : rsplitOnce ' ' (stripLeading n ++ ' ' :: tok) = some (stripLeading n, tok) :=
    rsplitOnce_append_token _ tok hspace
  have hprice : (pyStrip tok).filter (fun c => c ≠ '$') = tok.filter (fun c => c ≠ '$') := by
    rw [pyStrip_all_neg tok hws]
  have hparse : ∀ res : Option ℚ, pyFloat (tok.filter (fun c => c ≠ '$')) = res →
      parseReceiptLine today (stripLeading n ++ ' ' :: tok) =
        (match res with
          | some q => some ⟨String.mk (pyStrip n), q, today⟩
          | none => none) := by
    intro res hres
    unfold parseReceiptLine
    rw [hs2, if_neg hne2, hrsplit]
    dsimp only
    rw [hprice, hres]
    match res with
    | some q =>
      dsimp only
      rw [pyStrip_stripLeading]
    | none => rfl
  have hlines : splitOnChar '\n' (pyStrip (String.mk (n ++ ' ' :: tok)).data) =
      [stripLeading n ++ ' ' :: tok] := by
    show splitOnChar '\n' (pyStrip (n ++ ' ' :: tok)) = _
    rw [hstrip]
    exact splitOnChar_of_not_mem '\n' _ hmem
  constructor
  · intro q hq
    unfold parse_receipt_text
    rw [hlines, List.filterMap_cons, hparse (some q) hq]
    rfl
  · intro hq
    unfold parse_receipt_text
    rw [hlines, List.filterMap_cons, hparse none hq]
    rfl

/-- Witness for C5 at the concrete line `"Milk: $3.50"`. -/
theorem receipt_line_contract_witness :
    parse_receipt_text "2024-01-01" (String.mk ("Milk:".data ++ ' ' :: "$3.50".data)) =
      [⟨String.mk (pyStrip ("Milk:".data)), 3 + 50 / 10 ^ 2, "2024-01-01"⟩] :=
  (receipt_line_contract "2024-01-01" ("Milk:".data) ("$3.50".data)
      (by decide) (by decide) (by decide) (by decide) (by decide)).1
    (3 + 50 / 10 ^ 2) rfl

theorem parseUnsignedFloat_nonneg (l : List Char) (q : ℚ)
    (h : parseUnsignedFloat l = some q) : 0 ≤ q := by
  unfold parseUnsignedFloat at h
  dsimp only at h
  split at h
  · by_cases hip : l.takeWhile Char.isDigit = []
    · rw [if_pos hip] at h
      simp at h
    · rw [if_neg hip] at h
      rw [← Option.some_inj.mp h]
      positivity
  · rename_i r heq
    by_cases hif : l.takeWhile Char.isDigit = [] ∧ r.takeWhile Char.isDigit = []
    · rw [if_pos hif] at h
      simp at h
    · rw [if_neg hif] at h
      split at h
      · rw [← Option.some_inj.mp h]
        positivity
      · split at h
        · obtain ⟨ex, hex, hval⟩ := Option.map_eq_some'.mp h
          rw [← hval]
          positivity
        · simp at h
  · rename_i e r3 hguard heq
    by_cases hip : l.takeWhile Char.isDigit = []
    · rw [if_pos hip] at h
      simp at h
    · rw [if_neg hip] at h
      split at h
      · obtain ⟨ex, hex, hval⟩ := Option.map_eq_some'.mp h
        rw [← hval]
        positivity
      · simp at h

theorem pyFloat_nonneg (l : List Char) (q : ℚ)
    (hm : ∀ c ∈ l, c ≠ '-') (h : pyFloat l = some q) : 0 ≤ q := by
  unfold pyFloat at h
  split at h
  · exact parseUnsignedFloat_nonneg _ q h
  · rename_i r
    exact absurd rfl (hm '-' (List.mem_cons_self _ _))
  · exact parseUnsignedFloat_nonneg _ q h

theorem splitOnChar_mem_subset (ch : Char) :
    ∀ (l piece : List Char), piece ∈ splitOnChar ch l → ∀ c ∈ piece, c ∈ l := by
  intro l
  induction l with
  | nil =>
    intro piece hp c hc
    simp [splitOnChar] at hp
    subst hp
    simp at hc
  | cons x xs ih =>
    intro piece hp c hc
    simp only [splitOnChar] at hp
    cases hxs : splitOnChar ch xs with
    | nil =>
      rw [hxs] at hp
      simp at hp
      subst hp
      rcases List.mem_cons.mp hc with h3 | h4
      · subst h3; exact List.mem_cons_self _ _
      · simp at h4
    | cons p ps =>
      rw [hxs] at hp
      dsimp only at hp
      by_cases hx : x = ch
      · rw [if_pos hx] at hp
        rcases List.mem_cons.mp hp with h1 | h2
        · subst h1; simp at hc
        · exact List.mem_cons_of_mem x (ih piece (by rw [hxs]; exact h2) c hc)
      · rw [if_neg hx] at hp
        rcases List.mem_cons.mp hp with h1 | h2
        · subst h1
          rcases List.mem_cons.mp hc with h3 | h4
          · subst h3; exact List.mem_cons_self _ _
          · exact List.mem_cons_of_mem x
              (ih p (by rw [hxs]; exact List.mem_cons_self p ps) c h4)
        · exact List.mem_cons_of_mem x
            (ih piece (by rw [hxs]; exact List.mem_cons_of_mem p h2) c hc)

theorem pyStrip_subset (l : List Char) : ∀ c ∈ pyStrip l, c ∈ l := by
  intro c hc
  unfold pyStrip at hc
  rw [List.mem_reverse] at hc
  have h1 := List.dropWhile_subset pyIsSpace hc
  rw [List.mem_reverse] at h1
  exact List.dropWhile_subset pyIsSpace h1

theorem rsplitOnce_subset (sep : Char) (l a b : List Char)
    (h : rsplitOnce sep l = some (a, b)) :
    (∀ c ∈ a, c ∈ l) ∧ (∀ c ∈ b, c ∈ l) := by
  unfold rsplitOnce at h
  rw [List.span_eq_take_drop] at h
  cases hd : (l.reverse).dropWhile (fun c => decide (c ≠ sep)) with
  | nil => rw [hd] at h; simp at h
  | cons x pre =>
    rw [hd] at h
    dsimp only at h
    have h2 := Option.some_inj.mp h
    have ha : pre.reverse = a := congrArg Prod.fst h2
    have hb : (l.reverse.takeWhile (fun c => decide (c ≠ sep))).reverse = b :=
      congrArg Prod.snd h2
    constructor
    · intro c hc
      rw [← ha] at hc
      rw [List.mem_reverse] at hc
      have h3 : c ∈ x :: pre := List.mem_cons_of_mem x hc
      rw [← hd] at h3
      have h4 := List.dropWhile_subset (fun c => decide (c ≠ sep)) h3
      rw [List.mem_reverse] at h4
      exact h4
    · intro c hc
      rw [← hb] at hc
      rw [List.mem_reverse] at hc
      have h4 := List.takeWhile_subset (fun c => decide (c ≠ sep)) hc
      rw [List.mem_reverse] at h4
      exact h4

theorem parse_receipt_price_src (today text : String) (it : RItem)
    (hit : it ∈ parse_receipt_text today text) :
    ∃ tok : List Char, (∀ c ∈ tok, c ∈ text.data) ∧ pyFloat tok = some it.price := by
  unfold parse_receipt_text at hit
  obtain ⟨line, hline, hparse⟩ := List.mem_filterMap.mp hit
  have hlinesub : ∀ c ∈ line, c ∈ text.data := by
    intro c hc
    exact pyStrip_subset _ c (splitOnChar_mem_subset '\n' _ line hline c hc)
  unfold parseReceiptLine at hparse
  split at hparse
  · simp at hparse
  · split at hparse
    · simp at hparse
    · rename_i x1 namePart pricePart heq
      split at hparse
      · rename_i x2 price heq2
        refine ⟨(pyStrip pricePart).filter (fun c => c ≠ '$'), ?_, ?_⟩
        · intro c hc
          have h1 := List.mem_of_mem_filter hc
          have h2 := pyStrip_subset pricePart c h1
          have h3 := (rsplitOnce_subset ' ' (pyStrip line) namePart pricePart heq).2 c h2
          exact hlinesub c (pyStrip_subset line c h3)
        · rw [heq2]
          have hit2 : it = ⟨String.mk (pyStrip namePart), price, today⟩ :=
            (Option.some_inj.mp hparse).symm
          rw [hit2]
      · simp at hparse

/-- C10 counterexample: the parser accepts signed numbers, so a receipt
line ending in a negative amount creates an item with a negative price —
the data model's `price ≥ 0` is not enforced. -/
theorem parse_receipt_negative_price :
    parse_receipt_text "2024-01-01" "Discount -2.50" =
        [⟨"Discount", -(2 + 50 / 10 ^ 2), "2024-01-01"⟩] ∧
      (-(2 + 50 / 10 ^ 2) : ℚ) < 0 :=
  ⟨rfl, by norm_num⟩

/-- C10 amended: every GroceryItem record the interpret-receipt stage
creates from a text without any minus sign has price ≥ 0 (the price is the
`float()` value of a token drawn from the text, and an unsigned float is
non-negative); a minus sign in the final token can make the price
negative. -/
theorem parse_receipt_price_nonneg (today text : String)
    (h : ∀ c ∈ text.data, c ≠ '-') :
    ∀ it ∈ parse_receipt_text today text, 0 ≤ it.price := by
  intro it hit
  obtain ⟨tok, hsub, hp⟩ := parse_receipt_price_src today text it hit
  exact pyFloat_nonneg tok it.price (fun c hc => h c (hsub c hc)) hp

/-- Witness for C10: a minus-free receipt text parses to items with
non-negative prices. -/
theorem parse_receipt_price_nonneg_witness :
    (∀ c ∈ ("Milk 3.50" : String).data, c ≠ '-') ∧
      ∀ it ∈ parse_receipt_text "2024-01-01" "Milk 3.50", 0 ≤ it.price :=
  ⟨by decide, parse_receipt_price_nonneg "2024-01-01" "Milk 3.50" (by decide)⟩

/-! ## Grocery tracker (`grocery_tracker/app.py`) -/

/-- The expiration filter of `get_grocery_inventory` with a requested
window of `n` days: skip items without a parseable `ExpirationDate`, keep
an item iff `0 <= days_until_expiration <= n`, and add the computed
`DaysUntilExpiration` to each kept item. -/
def filterExpiring (today : Date) (n : ℤ) : List Item → List Item
  | [] => []
  | it :: rest =>
    match it.expirationDate with
    | none => filterExpiring today n rest
    | some s =>
      match parseDate s with
      | none => filterExpiring today n rest
      | some d =>
        if 0 ≤ (rataDie d : ℤ) - (rataDie today : ℤ) ∧
            (rataDie d : ℤ) - (rataDie today : ℤ) ≤ n then
          { it with daysUntilExpiration := some ((rataDie d : ℤ) - (rataDie today : ℤ)) } :: filterExpiring today n rest
        else filterExpiring today n rest

/-- `get_grocery_inventory` given the scanned items: without a filter the
scan is returned unchanged; with one, the expiration window is applied. -/
def get_grocery_inventory (today : Date) (dte : Option ℤ) (items : List Item) :
    List Item :=
  match dte with
  | none => items
  | some n => filterExpiring today n items

theorem filterExpiring_eq_filterMap (today : Date) (n : ℤ) :
    ∀ items : List Item, filterExpiring today n items =
      items.filterMap (fun it =>
        match it.expirationDate with
        | none => none
        | some s =>
          match parseDate s with
          | none => none
          | some d =>
            if 0 ≤ (rataDie d : ℤ) - (rataDie today : ℤ) ∧
                (rataDie d : ℤ) - (rataDie today : ℤ) ≤ n then
              some { it with daysUntilExpiration := some ((rataDie d : ℤ) - (rataDie today : ℤ)) }
            else none) := by
  intro items
  induction items with
  | nil => rfl
  | cons it rest ih =>
    rw [List.filterMap_cons]
    unfold filterExpiring
    cases hexp : it.expirationDate with
    | none =>
      dsimp only
      exact ih
    | some s =>
      dsimp only
      cases hpd : parseDate s with
      | none =>
        dsimp only
        exact ih
      | some d =>
        dsimp only
        by_cases h0 : 0 ≤ (rataDie d : ℤ) - (rataDie today : ℤ) ∧
            (rataDie d : ℤ) - (rataDie today : ℤ) ≤ n
        · rw [if_pos h0, if_pos h0]
          dsimp only
          rw [ih]
        · rw [if_neg h0, if_neg h0]
          exact ih

/-- C8: with the filter `expiring_within_days = n`, an item of the scan
appears in the result iff its expiration date parses and its days until
expiration lie in [0, n] (already-expired items are excluded), each kept
item carrying the computed `DaysUntilExpiration`; the spec's scenario at
current date 2024-01-06 with n = 3 is the second conjunct. -/
theorem inventory_filter_spec :
    (∀ (today : Date) (n : ℤ) (items : List Item),
        get_grocery_inventory today (some n) items =
          items.filterMap (fun it =>
            match it.expirationDate with
            | none => none
            | some s =>
              match parseDate s with
              | none => none
              | some d =>
                if 0 ≤ (rataDie d : ℤ) - (rataDie today : ℤ) ∧
                    (rataDie d : ℤ) - (rataDie today : ℤ) ≤ n then
                  some { it with daysUntilExpiration := some ((rataDie d : ℤ) - (rataDie today : ℤ)) }
                else none)) ∧
      get_grocery_inventory ⟨2024, 1, 6⟩ (some 3)
          [⟨"i1", "milk", "2024-01-01", some "2024-01-08", some 7, none⟩,
            ⟨"i2", "old", "2024-01-01", some "2024-01-04", some 3, none⟩] =
        [⟨"i1", "milk", "2024-01-01", some "2024-01-08", some 7, some 2⟩] :=
  ⟨fun today n items => filterExpiring_eq_filterMap today n items, by decide⟩

/-- The DynamoDB `delete_item` of `remove_grocery_item`: removal by item
id, present or not. -/
def remove_grocery_item (itemId : String) (store : List Item) : List Item :=
  store.filter (fun it => it.itemId ≠ itemId)

/-- The DELETE branch of the tracker's `lambda_handler`: a missing or empty
(falsy) `item_id` is a 400 error; otherwise the item is deleted and a 200
response with the message and the item id is returned.  The result pairs
the HTTP response (status, body) with the table state after the call. -/
def handleDelete (itemId? : Option String) (store : List Item) :
    (ℕ × Json) × List Item :=
  match itemId? with
  | none => ((400, Json.obj [("error", Json.str "No item_id provided")]), store)
  | some itemId =>
    if itemId = "" then
      ((400, Json.obj [("error", Json.str "No item_id provided")]), store)
    else
      ((200, Json.obj
          [("message", Json.str ("Item " ++ itemId ++ " removed from inventory")),
            ("item_id", Json.str itemId)]),
        remove_grocery_item itemId store)

/-- C9 counterexample: the empty item id is falsy in Python, so deleting
item id `""` answers 400, not the success response — the claim's "for
every item_id" fails. -/
theorem delete_empty_id_not_success :
    (handleDelete (some "") []).1.1 = 400 ∧ (400 : ℕ) ≠ 200 :=
  ⟨rfl, by decide⟩

/-- C9 amended: for every non-empty item id, the delete operation answers
200 with the removal message and the item id whether or not the id is in
the store, the store loses exactly the items with that id, and deleting
the same id twice leaves the same store and returns the same response as
deleting it once. -/
theorem delete_idempotent_success (itemId : String) (store : List Item)
    (h : itemId ≠ "") :
    (handleDelete (some itemId) store).1.1 = 200 ∧
      (handleDelete (some itemId) store).1.2 = Json.obj
        [("message", Json.str ("Item " ++ itemId ++ " removed from inventory")),
          ("item_id", Json.str itemId)] ∧
      (handleDelete (some itemId) store).2 = remove_grocery_item itemId store ∧
      handleDelete (some itemId) (handleDelete (some itemId) store).2 =
        ((handleDelete (some itemId) store).1, (handleDelete (some itemId) store).2) := by
  have hrm : remove_grocery_item itemId (remove_grocery_item itemId store) =
      remove_grocery_item itemId store := by
    unfold remove_grocery_item
    rw [List.filter_filter]
    apply List.filter_congr
    intro a ha
    simp
  have hd : ∀ st : List Item, handleDelete (some itemId) st =
      ((200, Json.obj
          [("message", Json.str ("Item " ++ itemId ++ " removed from inventory")),
            ("item_id", Json.str itemId)]),
        remove_grocery_item itemId st) := by
    intro st
    unfold handleDelete
    dsimp only
    rw [if_neg h]
  simp [hd, hrm]

/-- Witness for C9 at item id `"x"` over the empty store. -/
theorem delete_idempotent_success_witness :
    (handleDelete (some "x") []).1.1 = 200 ∧
      (handleDelete (some "x") []).1.2 = Json.obj
        [("message", Json.str ("Item " ++ "x" ++ " removed from inventory")),
          ("item_id", Json.str "x")] ∧
      (handleDelete (some "x") []).2 = remove_grocery_item "x" [] ∧
      handleDelete (some "x") (handleDelete (some "x") []).2 =
        ((handleDelete (some "x") []).1, (handleDelete (some "x") []).2) :=
  delete_idempotent_success "x" [] (by decide)
